import Mathlib

/-!
The ZeroMQ output module of rsyslog, omczmq.

A shallow embedding of `contrib/omczmq/omczmq.c`.

* C strings are lists of chars (the chars before the terminating NUL).
* A socket or actor handle is `Option Nat`: `none` is the NULL pointer and
  `some k` is the `k`-th object the transport library handed out.
* Every call into the transport library (czmq) is recorded as a `Call`, in
  program order; the outcomes the library decides (does socket creation
  succeed, does a certificate load, what does attach or a send return) are read
  from a `Transport` record.
* Reading `ppString` past its end, `strcmp` on a NULL pointer, sending to a
  NULL actor and writing past `char topic[256]` are undefined in C; the
  functions that can do so return `none` (resp. an `Except` error) there.
-/

namespace Omczmq

/-- A C string: its chars up to, and without, the terminating NUL. -/
abbrev CStr := List Char

/-- Modelled from the spec: the return codes of `rsyslog.h`, which is not among
the sources. `RS_RET_SUSPENDED` is what the spec calls `SOCKET_CREATE_FAILED`,
`ATTACH_FAILED` and `SEND_FAILED` (the caller suspends and resumes),
`RS_RET_ERR` its `CERT_LOAD_FAILED`, `RS_RET_OUT_OF_MEMORY` its
`OUT_OF_MEMORY`. -/
inductive rsRetVal
  | RS_RET_OK
  | RS_RET_SUSPENDED
  | RS_RET_ERR
  | RS_RET_OUT_OF_MEMORY
  deriving DecidableEq, Repr

open rsRetVal

/-- Modelled from the spec: the socket pattern PUBLISH; the constant of `zmq.h`
(not among the sources), with the value libzmq gives it. -/
def ZMQ_PUB : Int := 1

/-- Modelled from the spec: the socket pattern DEALER; the constant of `zmq.h`
(not among the sources), with the value libzmq gives it. -/
def ZMQ_DEALER : Int := 5

/-- Modelled from the spec: the socket pattern PUSH; the constant of `zmq.h`
(not among the sources), with the value libzmq gives it. -/
def ZMQ_PUSH : Int := 8

/-- Modelled from the spec: the accept-any-certificate setting of the
authenticator; the constant of czmq's `zauth.h` (not among the sources). -/
def CURVE_ALLOW_ANY : CStr := ['*']

/-- One call into the transport library, with the arguments it was given and,
where the library decides it, the result it gave. -/
inductive Call
  | putenv (s : CStr)
  | zsock_new (type : Int) (sock : Option Nat)
  | zsock_set_sndtimeo (sock : Option Nat) (ms : Int)
  | zcert_load (path : Option CStr) (ok : Bool)
  | zsock_set_zap_domain (sock : Option Nat) (domain : CStr)
  | zsock_set_curve_server (sock : Option Nat) (v : Int)
  | zsock_set_curve_serverkey (sock : Option Nat) (certPath : Option CStr)
  | zcert_apply (certPath : Option CStr) (sock : Option Nat)
  | zsock_attach (sock : Option Nat) (endpoints : Option CStr) (serverish : Bool) (rc : Int)
  | send (sock : Option Nat) (frames : List CStr) (rc : Int)
  | zsock_destroy (sock : Option Nat)
  | zactor_new (actor : Option Nat)
  | actor_send (actor : Option Nat) (frames : List CStr)
  | zsock_wait (actor : Option Nat)
  deriving DecidableEq, Repr

/-- The outcomes the transport library decides during one entry point:
whether `zsock_new` of a type yields a socket, whether `zcert_load` of a path
yields a certificate, the return code of `zsock_attach`, and the return code
of the `i`-th send (counted from 0) of the call. -/
structure Transport where
  zsock_new : Int → Bool
  zcert_load : Option CStr → Bool
  zsock_attach : Option CStr → Bool → Int
  send : Nat → Int

/-- The module configuration `struct modConfData_s` (without `pConf` and
`tplName`, which the engine never reads). -/
structure modConfData where
  authenticator : Int
  authType : Option CStr
  serverCertPath : Option CStr
  clientCertPath : Option CStr
  deriving DecidableEq, Repr

/-- The per-action record `struct _instanceData`. `topics` is the `zlist_t *`:
`none` is NULL, `some l` a list object holding the items `l` in append order. -/
structure instanceData where
  sock : Option Nat
  serverish : Bool
  sendTimeout : Int
  topics : Option (List CStr)
  sendError : Bool
  sockEndpoints : Option CStr
  sockType : Int
  tplName : Option CStr
  topicFrame : Bool
  dynaKey : Bool
  deriving DecidableEq, Repr

/-- What an entry point leaves behind: its return code, the instance, the
number of sockets the library has handed out so far, and the calls it made. -/
structure Outcome where
  iRet : rsRetVal
  pData : instanceData
  nextSock : Nat
  calls : List Call
  deriving DecidableEq, Repr

/-- The `if(runModConf->authType)` block of `initCZMQ` on socket `sock`:
`true` when it runs through, `false` when a certificate fails to load
(`ABORT_FINALIZE(RS_RET_ERR)`), with the calls made. -/
def curveSetup (runModConf : modConfData) (t : Transport) (sock : Option Nat) :
    Bool × List Call :=
  match runModConf.authType with
  | none => (true, [])
  | some authType =>
    if authType = "CURVESERVER".toList then
      if t.zcert_load runModConf.serverCertPath = false then
        (false, [Call.zcert_load runModConf.serverCertPath false])
      else
        (true, [Call.zcert_load runModConf.serverCertPath true,
                Call.zsock_set_zap_domain sock "global".toList,
                Call.zsock_set_curve_server sock 1,
                Call.zcert_apply runModConf.serverCertPath sock])
    else if authType = "CURVECLIENT".toList then
      if t.zcert_load runModConf.serverCertPath = false then
        (false, [Call.zcert_load runModConf.serverCertPath false])
      else if t.zcert_load runModConf.clientCertPath = false then
        (false, [Call.zcert_load runModConf.serverCertPath true,
                 Call.zsock_set_curve_serverkey sock runModConf.serverCertPath,
                 Call.zcert_load runModConf.clientCertPath false])
      else
        (true, [Call.zcert_load runModConf.serverCertPath true,
                Call.zsock_set_curve_serverkey sock runModConf.serverCertPath,
                Call.zcert_load runModConf.clientCertPath true,
                Call.zcert_apply runModConf.clientCertPath sock])
    else (true, [])

/-- The `switch(pData->sockType)` of `initCZMQ`: the value of
`pData->serverish` after it. -/
def roleOf (sockType : Int) (serverish : Bool) : Bool :=
  if sockType = ZMQ_PUB then true
  else if sockType = ZMQ_PUSH ∨ sockType = ZMQ_DEALER then false
  else serverish

/-- The creation sequence `initCZMQ`. `nextSock` numbers the socket that
`zsock_new` hands out. -/
def initCZMQ (runModConf : modConfData) (t : Transport) (nextSock : Nat)
    (pData : instanceData) : Outcome :=
  let c0 := [Call.putenv "ZSYS_SIGHANDLER=false".toList]
  if t.zsock_new pData.sockType = false then
    { iRet := RS_RET_SUSPENDED, pData := { pData with sock := none }, nextSock := nextSock,
      calls := c0 ++ [Call.zsock_new pData.sockType none] }
  else
    let pData1 := { pData with sock := some nextSock }
    let c1 := c0 ++ [Call.zsock_new pData1.sockType pData1.sock,
                     Call.zsock_set_sndtimeo pData1.sock pData1.sendTimeout]
    match curveSetup runModConf t pData1.sock with
    | (false, c2) =>
      { iRet := RS_RET_ERR, pData := pData1, nextSock := nextSock + 1, calls := c1 ++ c2 }
    | (true, c2) =>
      let pData2 := { pData1 with serverish := roleOf pData1.sockType pData1.serverish }
      let rc := t.zsock_attach pData2.sockEndpoints pData2.serverish
      let c3 := c1 ++ c2 ++
        [Call.zsock_attach pData2.sock pData2.sockEndpoints pData2.serverish rc]
      if rc = -1 then
        { iRet := RS_RET_SUSPENDED, pData := pData2, nextSock := nextSock + 1, calls := c3 }
      else
        { iRet := RS_RET_OK, pData := pData2, nextSock := nextSock + 1, calls := c3 }

/-- The czmq call `zstr_sendx(sock, topic, payload, NULL)`: one message of two
frames. -/
def zstr_sendx (sock : Option Nat) (topic payload : CStr) (rc : Int) : Call :=
  Call.send sock [topic, payload] rc

/-- The czmq call `zstr_sendf(sock, "%s%s", topic, payload)`: one frame, the
two strings formatted one after the other. -/
def zstr_sendf (sock : Option Nat) (topic payload : CStr) (rc : Int) : Call :=
  Call.send sock [topic ++ payload] rc

/-- The czmq call `zstr_send(sock, string)`: one frame. -/
def zstr_send (sock : Option Nat) (string : CStr) (rc : Int) : Call :=
  Call.send sock [string] rc

/-- The `while(topic)` loop of `outputCZMQ` over the items of the topic list
still to visit, with the current `templateIndex`. Returns the return code so
far (`RS_RET_SUSPENDED` after a failed send) and the sends attempted; `none`
when `ppString` is read past its end. -/
def topicLoop (t : Transport) (pData : instanceData) (ppString : List CStr) :
    List CStr → Nat → Option (rsRetVal × List Call)
  | [], _ => some (RS_RET_OK, [])
  | item :: rest, templateIndex =>
    match (if pData.dynaKey then ppString[templateIndex]? else some item), ppString[0]? with
    | some topic, some payload =>
      let rc := t.send (templateIndex - 1)
      let call :=
        if pData.topicFrame then zstr_sendx pData.sock topic payload rc
        else zstr_sendf pData.sock topic payload rc
      if rc ≠ 0 then some (RS_RET_SUSPENDED, [call])
      else
        match topicLoop t pData ppString rest (templateIndex + 1) with
        | some (r, calls) => some (r, call :: calls)
        | none => none
    | _, _ => none

/-- The part of `outputCZMQ` after the socket is there: the topic loop for a
PUB socket with a topic list, one plain send otherwise. `calls` are the calls
made so far. -/
def sendPhase (t : Transport) (ppString : List CStr) (pData : instanceData)
    (nextSock : Nat) (calls : List Call) : Option Outcome :=
  match decide (pData.sockType = ZMQ_PUB), pData.topics with
  | true, some topics =>
    match topicLoop t pData ppString topics 1 with
    | some (RS_RET_OK, sends) =>
      some { iRet := RS_RET_OK, pData := pData, nextSock := nextSock, calls := calls ++ sends }
    | some (r, sends) =>
      some { iRet := r, pData := { pData with sendError := true }, nextSock := nextSock,
             calls := calls ++ sends }
    | none => none
  | _, _ =>
    match ppString[0]? with
    | none => none
    | some payload =>
      let rc := t.send 0
      if rc ≠ 0 then
        some { iRet := RS_RET_SUSPENDED, pData := { pData with sendError := true },
               nextSock := nextSock, calls := calls ++ [zstr_send pData.sock payload rc] }
      else
        some { iRet := RS_RET_OK, pData := pData, nextSock := nextSock,
               calls := calls ++ [zstr_send pData.sock payload rc] }

/-- The step `if(NULL == pData->sock) initCZMQ(pData)` that opens
`outputCZMQ` (the spec's `ensureSocket`): nothing happens when the handle is
there, else the creation sequence runs. -/
def ensureSocket (runModConf : modConfData) (t : Transport) (nextSock : Nat)
    (pData : instanceData) : Outcome :=
  match pData.sock with
  | none => initCZMQ runModConf t nextSock pData
  | some _ => { iRet := RS_RET_OK, pData := pData, nextSock := nextSock, calls := [] }

/-- The publish operation `outputCZMQ`: create the socket when the handle is
NULL, leaving at once when that fails (`CHKiRet`), then send. -/
def outputCZMQ (runModConf : modConfData) (t : Transport) (nextSock : Nat)
    (ppString : List CStr) (pData : instanceData) : Option Outcome :=
  let r := ensureSocket runModConf t nextSock pData
  if r.iRet ≠ RS_RET_OK then some r
  else sendPhase t ppString r.pData r.nextSock r.calls

/-- The entry point `doAction`: `outputCZMQ` under the module lock. -/
def doAction (runModConf : modConfData) (t : Transport) (nextSock : Nat)
    (ppString : List CStr) (pData : instanceData) : Option Outcome :=
  outputCZMQ runModConf t nextSock ppString pData

/-- The entry point `tryResume`: `zsock_destroy(&pData->sock)`, which also
sets the handle to NULL, then `initCZMQ`. -/
def tryResume (runModConf : modConfData) (t : Transport) (nextSock : Nat)
    (pData : instanceData) : Outcome :=
  let r := initCZMQ runModConf t nextSock { pData with sock := none }
  { r with calls := Call.zsock_destroy pData.sock :: r.calls }

/-- The function `setInstParamDefaults`; it leaves `dynaKey` as it is. -/
def setInstParamDefaults (pData : instanceData) : instanceData :=
  { pData with
    sockEndpoints := none, sock := none, sendError := false, serverish := false,
    tplName := none, sockType := -1, sendTimeout := -1, topics := none, topicFrame := false }

/-- The instance that `createInstance` hands to `setInstParamDefaults`. The
macro behind `BEGINcreateInstance` (module-template.h, not among the sources)
allocates it zeroed; this matters for `dynaKey` only, the one field that
`setInstParamDefaults` leaves alone. -/
def createInstance : instanceData :=
  { sock := none, serverish := false, sendTimeout := 0, topics := none, sendError := false,
    sockEndpoints := none, sockType := 0, tplName := none, topicFrame := false,
    dynaKey := false }

/-- The entry point `activateCnf`. `authActor` is the module's actor handle
before the call, `zactor_new` what the library hands out if asked for an actor.
Returns the handle after the call and the calls made; `none` where C is
undefined (`strcmp` on a NULL `clientCertPath`, a send to a NULL actor). -/
def activateCnf (pModConf : modConfData) (zactor_new : Option Nat) (authActor : Option Nat) :
    Option (Option Nat × List Call) :=
  if pModConf.authenticator = 1 then
    match authActor with
    | some a => some (some a, [])
    | none =>
      match pModConf.clientCertPath, zactor_new with
      | some clientCertPath, some a =>
        if clientCertPath = ['*'] then
          some (some a, [Call.zactor_new (some a),
                         Call.actor_send (some a) ["CURVE".toList, CURVE_ALLOW_ANY],
                         Call.zsock_wait (some a)])
        else
          some (some a, [Call.zactor_new (some a),
                         Call.actor_send (some a) ["CURVE".toList, clientCertPath],
                         Call.zsock_wait (some a)])
      | _, _ => none
  else some (authActor, [])

/-- What can go wrong in the model of the topics loop of `newActInst`:
`bufferOverflow` is a segment of 256 bytes or more copied into
`char topic[256]` (undefined in C), `fuel` an iteration bound that was too
small (never the case for `parseTopics`). -/
inductive Fault
  | bufferOverflow
  | fuel
  deriving DecidableEq, Repr

/-- The libc call `strchr(s, c)` as an offset into `s`: that of the first `c`,
`none` (NULL) when `s` has none. -/
def strchr : CStr → Char → Option Nat
  | [], _ => none
  | x :: xs, c => if x = c then some 0 else (strchr xs c).map (· + 1)

/-- The libc call `strlen`. -/
def strlen (s : CStr) : Nat := s.length

/-- The `while(*topics)` loop of the `topics` branch of `newActInst`, on the
rest of the string still to read; returns the topics appended to the list, in
append order. The first argument bounds the number of iterations. -/
def topicsLoop : Nat → CStr → Except Fault (List CStr)
  | _, [] => .ok []
  | 0, _ :: _ => .error Fault.fuel
  | fuel + 1, c :: cs =>
    let topics := c :: cs
    let delimiter :=
      match strchr topics ',' with
      | some d => d
      | none => strlen topics
    if 256 ≤ delimiter then .error Fault.bufferOverflow
    else
      let current_topic := topics.take delimiter
      match topics.drop delimiter with
      | [] => .ok [current_topic]
      | _ :: rest =>
        match topicsLoop fuel rest with
        | .ok appended => .ok (current_topic :: appended)
        | .error e => .error e

/-- Topic-list parsing: the topics loop on the whole string. Every iteration
consumes at least one char, so `strlen` iterations are enough. -/
def parseTopics (s : CStr) : Except Fault (List CStr) :=
  topicsLoop (strlen s) s

/-- The `topics` branch of `newActInst`: `zlist_new`, then `es_str2cstr`
(`none` when it returns NULL), then the loop. -/
def newActInst_topics (pData : instanceData) (topics : Option CStr) :
    Except Fault (rsRetVal × instanceData) :=
  match topics with
  | none => .ok (RS_RET_OUT_OF_MEMORY, { pData with topics := some [] })
  | some s =>
    match parseTopics s with
    | .ok l => .ok (RS_RET_OK, { pData with topics := some l })
    | .error e => .error e

/-- The state of one action between entry points: the instance, the number of
sockets handed out so far, all transport calls so far, and the last return
code. -/
structure Sys where
  pData : instanceData
  nextSock : Nat
  log : List Call
  iRet : rsRetVal

/-- An entry point the host calls on an action, with the transport outcomes
during that call. -/
inductive Op
  | doAction (ppString : List CStr) (t : Transport)
  | tryResume (t : Transport)

/-- One entry point run on a state; `none` when the call is undefined in C. -/
def step (runModConf : modConfData) (s : Sys) : Op → Option Sys
  | Op.doAction ppString t =>
    match doAction runModConf t s.nextSock ppString s.pData with
    | some r => some { pData := r.pData, nextSock := r.nextSock, log := s.log ++ r.calls,
                       iRet := r.iRet }
    | none => none
  | Op.tryResume t =>
    let r := tryResume runModConf t s.nextSock s.pData
    some { pData := r.pData, nextSock := r.nextSock, log := s.log ++ r.calls, iRet := r.iRet }

/-- A sequence of entry points run from a state. -/
def run (runModConf : modConfData) : Sys → List Op → Option Sys
  | s, [] => some s
  | s, op :: ops =>
    match step runModConf s op with
    | some s1 => run runModConf s1 ops
    | none => none

/-- The state of an action whose instance has just been constructed. -/
def start (pData : instanceData) : Sys :=
  { pData := pData, nextSock := 0, log := [], iRet := RS_RET_OK }

/-! ## Definitions that follow the specification -/

/-- The send attempts among some calls, in order: socket, frames and return
code of each. -/
def sendAttempts (calls : List Call) : List (Option Nat × List CStr × Int) :=
  calls.filterMap fun c =>
    match c with
    | Call.send sock frames rc => some (sock, frames, rc)
    | _ => none

/-- The message for a topic string and a payload in the framing mode of the
instance (spec 4.2): two frames, topic then payload, when `topicFrame` is set;
else one frame, the topic immediately followed by the payload. -/
def framed (pData : instanceData) (topic payload : CStr) : List CStr :=
  if pData.topicFrame then [topic, payload] else [topic ++ payload]

/-- The effective topic string of the `i`-th send (from 0) of a publish (spec
4.2): the literal configured name, or `renderedStrings[i + 1]` with
`topicFromTemplate`. -/
def effectiveTopic (pData : instanceData) (ppString : List CStr) (topics : List CStr)
    (i : Nat) : CStr :=
  if pData.dynaKey then ppString.getD (i + 1) [] else topics.getD i []

/-- Whether a log holds a successful attach (return code other than -1) of
the given socket. -/
def attached (log : List Call) (sock : Option Nat) : Bool :=
  log.any fun c =>
    match c with
    | Call.zsock_attach s _ _ rc => decide (s = sock ∧ rc ≠ -1)
    | _ => false

/-- Whether a log holds any security setting or certificate applied to the
given socket. -/
def secured (log : List Call) (sock : Option Nat) : Bool :=
  log.any fun c =>
    match c with
    | Call.zsock_set_curve_server s _ => decide (s = sock)
    | Call.zsock_set_curve_serverkey s _ => decide (s = sock)
    | Call.zcert_apply _ s => decide (s = sock)
    | _ => false

/-- The comma-separated segments of a topic-list string. -/
def segments (s : CStr) : List CStr := s.splitOn ','

/-- Joining a sequence of topics with commas. -/
def joinTopics (l : List CStr) : CStr := [','].intercalate l

/-- The segments a topic list is made of: the comma-separated segments, less
the empty segment after a final comma (or of the empty string). -/
def topicSegments (s : CStr) : List CStr :=
  if (segments s).getLast? = some [] then (segments s).dropLast else segments s

/-- A string with its leading and trailing whitespace removed. -/
def trim (s : CStr) : CStr :=
  ((s.dropWhile Char.isWhitespace).reverse.dropWhile Char.isWhitespace).reverse

/-! ## Concrete configurations and transports -/

/-- A module configuration without security. -/
def noSecurity : modConfData :=
  { authenticator := 0, authType := none, serverCertPath := none, clientCertPath := none }

/-- A module configuration with `authtype="CURVESERVER"`. -/
def curveServer : modConfData :=
  { authenticator := 1, authType := some "CURVESERVER".toList,
    serverCertPath := some "/etc/curve/server".toList, clientCertPath := some "*".toList }

/-- A module configuration `module(load="omczmq" authenticator="on")`: no
other module directive is given, so `beginCnfLoad` has left `authType` and both
certificate paths NULL. -/
def authenticatorOnly : modConfData :=
  { authenticator := 1, authType := none, serverCertPath := none, clientCertPath := none }

/-- A transport on which every call succeeds. -/
def allSucceed : Transport :=
  { zsock_new := fun _ => true, zcert_load := fun _ => true, zsock_attach := fun _ _ => 0,
    send := fun _ => 0 }

/-- A transport on which no certificate loads. -/
def certMissing : Transport :=
  { zsock_new := fun _ => true, zcert_load := fun _ => false, zsock_attach := fun _ _ => 0,
    send := fun _ => 0 }

/-- A transport on which attach fails. -/
def attachFails : Transport :=
  { zsock_new := fun _ => true, zcert_load := fun _ => true, zsock_attach := fun _ _ => -1,
    send := fun _ => 0 }

/-- A transport on which the `k`-th send (from 0) fails and all else
succeeds. -/
def sendFailsAt (k : Nat) : Transport :=
  { zsock_new := fun _ => true, zcert_load := fun _ => true, zsock_attach := fun _ _ => 0,
    send := fun i => if i = k then -1 else 0 }

/-- An action `endpoints="tcp://*:5555" socktype=...` as `newActInst` leaves
it when no other directive is given. -/
def action (sockType : Int) : instanceData :=
  { setInstParamDefaults createInstance with
    sockEndpoints := some "tcp://*:5555".toList, sockType := sockType }

/-- A PUB action with `topics="x,y"`, its socket (number 0) already there. -/
def pubXY (topicFrame dynaKey : Bool) : instanceData :=
  { action ZMQ_PUB with
    topics := some ["x".toList, "y".toList], sock := some 0, topicFrame := topicFrame,
    dynaKey := dynaKey }

/-! ## Topic-list parsing -/

theorem strchr_none {s : CStr} {c : Char} (h : strchr s c = none) : c ∉ s := by
  induction s with
  | nil => simp
  | cons x xs ih =>
    simp only [strchr] at h
    split at h
    · simp at h
    · rename_i hx
      simp only [Option.map_eq_none'] at h
      simp only [List.mem_cons, not_or]
      exact ⟨fun e => hx e.symm, ih h⟩

theorem strchr_some {s : CStr} {c : Char} {d : Nat} (h : strchr s c = some d) :
    s = s.take d ++ c :: s.drop (d + 1) ∧ c ∉ s.take d ∧ (s.take d).length = d := by
  induction s generalizing d with
  | nil => simp [strchr] at h
  | cons x xs ih =>
    simp only [strchr] at h
    split at h
    · rename_i hx
      simp only [Option.some.injEq] at h
      subst h
      simp [hx]
    · rename_i hx
      simp only [Option.map_eq_some'] at h
      obtain ⟨e, he, rfl⟩ := h
      obtain ⟨h1, h2, h3⟩ := ih he
      refine ⟨?_, ?_, ?_⟩
      · simp only [List.take_succ_cons, List.drop_succ_cons, List.cons_append, List.cons.injEq,
          true_and]
        exact h1
      · simp only [List.take_succ_cons, List.mem_cons, not_or]
        exact ⟨fun e => hx e.symm, h2⟩
      · simp only [List.take_succ_cons, List.length_cons, h3]

theorem segments_no_comma {s : CStr} (h : ',' ∉ s) : segments s = [s] := by
  unfold segments List.splitOn
  apply List.splitOnP_eq_single
  intro x hx hp
  simp only [beq_iff_eq] at hp
  exact h (hp ▸ hx)

theorem segments_comma {seg rest : CStr} (h : ',' ∉ seg) :
    segments (seg ++ ',' :: rest) = seg :: segments rest := by
  unfold segments List.splitOn
  apply List.splitOnP_first
  · intro x hx hp
    simp only [beq_iff_eq] at hp
    exact h (hp ▸ hx)
  · simp

theorem segments_ne_nil (s : CStr) : segments s ≠ [] := by
  unfold segments List.splitOn
  exact List.splitOnP_ne_nil _ _

theorem topicSegments_nil : topicSegments [] = [] := by
  simp [topicSegments, segments]

theorem topicSegments_no_comma {s : CStr} (h : ',' ∉ s) (hs : s ≠ []) :
    topicSegments s = [s] := by
  simp [topicSegments, segments_no_comma h, hs]

theorem topicSegments_comma {seg rest : CStr} (h : ',' ∉ seg) :
    topicSegments (seg ++ ',' :: rest) = seg :: topicSegments rest := by
  have hne := segments_ne_nil rest
  simp only [topicSegments, segments_comma h]
  cases hr : segments rest with
  | nil => exact absurd hr hne
  | cons a l =>
    simp only [List.getLast?_cons_cons, List.dropLast_cons₂]
    split <;> rfl

/-- The topics loop, given enough iterations and segments that fit the
buffer, ends normally with the topic segments of the string. -/
theorem topicsLoop_eq (fuel : Nat) : ∀ s : CStr, s.length ≤ fuel →
    (∀ seg ∈ segments s, seg.length < 256) → topicsLoop fuel s = .ok (topicSegments s) := by
  induction fuel with
  | zero =>
    intro s hl _
    have : s = [] := List.length_eq_zero.mp (Nat.le_zero.mp hl)
    subst this
    simp [topicsLoop, topicSegments_nil]
  | succ fuel ih =>
    intro s hl hseg
    cases s with
    | nil => simp [topicsLoop, topicSegments_nil]
    | cons c cs =>
      simp only [topicsLoop]
      cases hd : strchr (c :: cs) ',' with
      | none =>
        have hno := strchr_none hd
        have hlen : (c :: cs).length < 256 := by
          apply hseg
          rw [segments_no_comma hno]
          simp
        simp only [strlen]
        rw [if_neg (by omega)]
        simp [List.take_of_length_le, List.drop_of_length_le,
          topicSegments_no_comma hno]
      | some d =>
        obtain ⟨h1, h2, h3⟩ := strchr_some hd
        have hs : segments (c :: cs) =
            (c :: cs).take d :: segments ((c :: cs).drop (d + 1)) := by
          conv_lhs => rw [h1]
          exact segments_comma h2
        have hd256 : d < 256 := by
          have := hseg ((c :: cs).take d) (by rw [hs]; simp)
          omega
        have hdrop : (c :: cs).drop d = ',' :: (c :: cs).drop (d + 1) := by
          conv_lhs => rw [h1]
          rw [List.drop_append_of_le_length (by omega)]
          simp [h3]
        simp only []
        rw [if_neg (by omega), hdrop]
        simp only []
        have hrest : ((c :: cs).drop (d + 1)).length ≤ fuel := by
          simp only [List.length_drop, List.length_cons] at hl ⊢
          omega
        rw [ih _ hrest (fun seg hm => hseg seg (by rw [hs]; exact List.mem_cons_of_mem _ hm))]
        simp only []
        congr 1
        conv_rhs => rw [h1]
        exact (topicSegments_comma h2).symm

theorem parseTopics_eq (s : CStr) (hseg : ∀ seg ∈ segments s, seg.length < 256) :
    parseTopics s = .ok (topicSegments s) :=
  topicsLoop_eq (strlen s) s (Nat.le_refl _) hseg

theorem joinTopics_segments (s : CStr) : joinTopics (segments s) = s := by
  unfold joinTopics segments
  exact List.intercalate_splitOn _ ','

theorem joinTopics_append_empty (l : List CStr) (hl : l ≠ []) :
    joinTopics (l ++ [[]]) = joinTopics l ++ [','] := by
  induction l with
  | nil => exact absurd rfl hl
  | cons a l ih =>
    cases l with
    | nil => simp [joinTopics, List.intercalate, List.intersperse]
    | cons b l =>
      have := ih (by simp)
      simp only [joinTopics, List.intercalate, List.cons_append, List.intersperse,
        List.flatten_cons, List.append_assoc, List.append_eq] at this ⊢
      rw [this]

theorem joinTopics_topicSegments (s : CStr) :
    joinTopics (topicSegments s) = s ∨ joinTopics (topicSegments s) ++ [','] = s := by
  unfold topicSegments
  split
  · rename_i hlast
    have hne := segments_ne_nil s
    have hsplit : segments s = (segments s).dropLast ++ [[]] := by
      have := List.dropLast_append_getLast? [] (by simpa using hlast)
      exact this.symm
    by_cases hd : (segments s).dropLast = []
    · left
      have : s = joinTopics (segments s) := (joinTopics_segments s).symm
      rw [hsplit, hd] at this
      rw [hd, this]
      simp [joinTopics, List.intercalate]
    · right
      rw [← joinTopics_append_empty _ hd, ← hsplit]
      exact joinTopics_segments s
  · left
    exact joinTopics_segments s

/-! ## The creation sequence -/

theorem curveSetup_sendAttempts (m : modConfData) (t : Transport) (sock : Option Nat) :
    sendAttempts (curveSetup m t sock).2 = [] := by
  unfold curveSetup
  split
  · rfl
  · split
    · split <;> rfl
    · split
      · split
        · rfl
        · split <;> rfl
      · rfl

theorem curveSetup_no_attach (m : modConfData) (t : Transport) (sock : Option Nat)
    (s : Option Nat) (ep : Option CStr) (srv : Bool) (rc : Int) :
    Call.zsock_attach s ep srv rc ∉ (curveSetup m t sock).2 := by
  unfold curveSetup
  split
  · simp
  · split
    · split <;> simp
    · split
      · split
        · simp
        · split <;> simp
      · simp

theorem sendAttempts_append (a b : List Call) :
    sendAttempts (a ++ b) = sendAttempts a ++ sendAttempts b := by
  simp [sendAttempts, List.filterMap_append]

theorem initCZMQ_sendAttempts (m : modConfData) (t : Transport) (n : Nat) (p : instanceData) :
    sendAttempts (initCZMQ m t n p).calls = [] := by
  have hc := curveSetup_sendAttempts m t (some n)
  unfold initCZMQ
  simp only []
  split
  · rfl
  · split
    · rename_i c2 heq
      rw [heq] at hc
      simp only [sendAttempts_append, hc]
      rfl
    · rename_i c2 heq
      rw [heq] at hc
      split <;> (simp only [sendAttempts_append, hc]; rfl)

/-- The creation sequence touches only the handle and the role of the
instance. -/
theorem initCZMQ_pData (m : modConfData) (t : Transport) (n : Nat) (p : instanceData) :
    (initCZMQ m t n p).pData =
      { p with sock := (initCZMQ m t n p).pData.sock,
               serverish := (initCZMQ m t n p).pData.serverish } := by
  unfold initCZMQ
  simp only []
  split
  · rfl
  · split
    · rfl
    · split <;> rfl

theorem initCZMQ_ok (m : modConfData) (t : Transport) (n : Nat) (p : instanceData)
    (h : (initCZMQ m t n p).iRet = RS_RET_OK) :
    (initCZMQ m t n p).pData.sock = some n ∧ (initCZMQ m t n p).nextSock = n + 1 := by
  unfold initCZMQ at h ⊢
  simp only [] at h ⊢
  split
  · rename_i h1; simp [h1] at h
  · split
    · simp
    · split <;> simp

theorem ensureSocket_sendAttempts (m : modConfData) (t : Transport) (n : Nat)
    (p : instanceData) : sendAttempts (ensureSocket m t n p).calls = [] := by
  unfold ensureSocket
  split
  · exact initCZMQ_sendAttempts m t n p
  · rfl

theorem ensureSocket_pData (m : modConfData) (t : Transport) (n : Nat) (p : instanceData) :
    (ensureSocket m t n p).pData =
      { p with sock := (ensureSocket m t n p).pData.sock,
               serverish := (ensureSocket m t n p).pData.serverish } := by
  unfold ensureSocket
  split
  · exact initCZMQ_pData m t n p
  · rfl

theorem ensureSocket_present (m : modConfData) (t : Transport) (n : Nat) (p : instanceData)
    (s : Nat) (h : p.sock = some s) :
    ensureSocket m t n p = { iRet := RS_RET_OK, pData := p, nextSock := n, calls := [] } := by
  unfold ensureSocket
  rw [h]

/-! ## The topic loop -/

theorem sendCall_eq (p : instanceData) (topic payload : CStr) (rc : Int) :
    (if p.topicFrame then zstr_sendx p.sock topic payload rc
      else zstr_sendf p.sock topic payload rc) =
      Call.send p.sock (framed p topic payload) rc := by
  unfold framed zstr_sendx zstr_sendf
  split <;> rfl

/-- With literal topics and sends that succeed, the loop sends once per item
left, in order, and ends normally. -/
theorem topicLoop_static (t : Transport) (p : instanceData) (P : CStr) (keys : List CStr)
    (hdyn : p.dynaKey = false) : ∀ (items : List CStr) (k : Nat),
    (∀ i, i < items.length → t.send (k + i) = 0) →
    topicLoop t p (P :: keys) items (k + 1) =
      some (RS_RET_OK, items.map fun ti => Call.send p.sock (framed p ti P) 0) := by
  intro items
  induction items with
  | nil => intro k _; rfl
  | cons item rest ih =>
    intro k h
    have h0 : t.send k = 0 := by simpa using h 0 (by simp)
    have hrest := ih (k + 1) (fun i hi => by
      have := h (i + 1) (by simpa using hi)
      rwa [show k + 1 + i = k + (i + 1) by omega])
    simp only [topicLoop, hdyn, Bool.false_eq_true, if_false, List.getElem?_cons_zero,
      Nat.add_sub_cancel, h0, ne_eq, not_true_eq_false, hrest, sendCall_eq, List.map_cons]

/-- With dynamic keys and sends that succeed, the loop sends once per item
left, under the rendered strings from `templateIndex` on. -/
theorem topicLoop_dyna (t : Transport) (p : instanceData) (P : CStr) (keys : List CStr)
    (hdyn : p.dynaKey = true) : ∀ (items : List CStr) (k : Nat),
    (∀ i, i < items.length → t.send (k + i) = 0) → k + items.length ≤ keys.length →
    topicLoop t p (P :: keys) items (k + 1) =
      some (RS_RET_OK,
        ((keys.drop k).take items.length).map fun key => Call.send p.sock (framed p key P) 0) := by
  intro items
  induction items with
  | nil => intro k _ _; simp [topicLoop]
  | cons item rest ih =>
    intro k h hlen
    simp only [List.length_cons] at hlen
    have h0 : t.send k = 0 := by simpa using h 0 (by simp)
    have hk : k < keys.length := by omega
    have hrest := ih (k + 1) (fun i hi => by
      have := h (i + 1) (by simpa using hi)
      rwa [show k + 1 + i = k + (i + 1) by omega]) (by omega)
    have hdrop : keys.drop k = keys[k] :: keys.drop (k + 1) := List.drop_eq_getElem_cons hk
    simp only [topicLoop, hdyn, if_true, List.getElem?_cons_succ, List.getElem?_eq_getElem hk,
      List.getElem?_cons_zero, Nat.add_sub_cancel, h0, ne_eq, not_true_eq_false, hrest,
      sendCall_eq, List.length_cons, hdrop, List.take_succ_cons, List.map_cons]
    simp

theorem effectiveTopic_item (p : instanceData) (P : CStr) (keys topics : List CStr) (k : Nat)
    (item : CStr) (rest : List CStr) (hitems : topics.drop k = item :: rest)
    (hk : p.dynaKey = true → k < keys.length) :
    (if p.dynaKey then (P :: keys)[k + 1]? else some item) =
      some (effectiveTopic p (P :: keys) topics k) := by
  unfold effectiveTopic
  cases hd : p.dynaKey with
  | true =>
    have := hk hd
    simp [List.getD_eq_getElem?_getD, List.getElem?_eq_getElem this]
  | false =>
    have h1 : (topics.drop k)[0]? = some item := by rw [hitems]; simp
    rw [List.getElem?_drop] at h1
    simp only [Nat.add_zero] at h1
    simp [List.getD_eq_getElem?_getD, h1]

/-- When the sends of the loop succeed `j` times and then fail, the loop makes
those `j + 1` attempts and no more, and ends with `RS_RET_SUSPENDED`. -/
theorem topicLoop_fail (t : Transport) (p : instanceData) (P : CStr) (keys topics : List CStr) :
    ∀ (items : List CStr) (k j : Nat), topics.drop k = items → j < items.length →
    (∀ i, i < j → t.send (k + i) = 0) → t.send (k + j) ≠ 0 →
    (p.dynaKey = true → k + j < keys.length) →
    topicLoop t p (P :: keys) items (k + 1) =
      some (RS_RET_SUSPENDED, (List.range' k (j + 1)).map fun i =>
        Call.send p.sock (framed p (effectiveTopic p (P :: keys) topics i) P) (t.send i)) := by
  intro items
  induction items with
  | nil => intro k j _ hj; simp at hj
  | cons item rest ih =>
    intro k j hitems hj hok hfail hkeys
    have htopic := effectiveTopic_item p P keys topics k item rest hitems
      (fun hd => by have := hkeys hd; omega)
    cases j with
    | zero =>
      have hf : t.send k ≠ 0 := by simpa using hfail
      simp only [topicLoop, htopic, List.getElem?_cons_zero, Nat.add_sub_cancel, ne_eq, hf,
        not_false_eq_true, if_true, sendCall_eq]
      simp
    | succ j =>
      have h0 : t.send k = 0 := by simpa using hok 0 (by omega)
      have hdrop : topics.drop (k + 1) = rest := by
        have := congrArg List.tail hitems
        simpa [List.tail_drop] using this
      have hrest := ih (k + 1) j hdrop (by simpa using hj)
        (fun i hi => by
          have := hok (i + 1) (by omega)
          rwa [show k + 1 + i = k + (i + 1) by omega])
        (by rwa [show k + 1 + j = k + (j + 1) by omega])
        (fun hd => by have := hkeys hd; omega)
      simp only [topicLoop, htopic, List.getElem?_cons_zero, Nat.add_sub_cancel, ne_eq, h0,
        not_true_eq_false, if_false, hrest, sendCall_eq]
      simp [List.range'_succ, h0]

theorem sendAttempts_map_send (sock : Option Nat) {α : Type} (l : List α)
    (f : α → List CStr) (g : α → Int) :
    sendAttempts (l.map fun a => Call.send sock (f a) (g a)) = l.map fun a => (sock, f a, g a) := by
  induction l with
  | nil => rfl
  | cons a l ih =>
    simp only [List.map_cons]
    rw [← ih]
    rfl

theorem framed_congr (p q : instanceData) (h : q.topicFrame = p.topicFrame) (a b : CStr) :
    framed q a b = framed p a b := by
  unfold framed
  rw [h]

theorem effectiveTopic_congr (p q : instanceData) (h : q.dynaKey = p.dynaKey)
    (pp topics : List CStr) (i : Nat) :
    effectiveTopic q pp topics i = effectiveTopic p pp topics i := by
  unfold effectiveTopic
  rw [h]
/-! ## What does hold of the handle -/

/-- The topics loop never runs out of iterations when given as many as the
string is long. -/
theorem topicsLoop_fuel (fuel : Nat) : ∀ s : CStr, s.length ≤ fuel →
    topicsLoop fuel s ≠ .error Fault.fuel := by
  induction fuel with
  | zero =>
    intro s hl
    have : s = [] := List.length_eq_zero.mp (Nat.le_zero.mp hl)
    subst this
    simp [topicsLoop]
  | succ fuel ih =>
    intro s hl
    cases s with
    | nil => simp [topicsLoop]
    | cons c cs =>
      simp only [topicsLoop]
      split
      · simp
      · split
        · simp
        · rename_i rest hdrop
          have hrest : rest.length ≤ fuel := by
            have := congrArg List.length hdrop
            simp only [List.length_drop, List.length_cons] at this hl
            omega
          have := ih rest hrest
          split
          · simp
          · rename_i e he
            intro h
            simp only [Except.error.injEq] at h
            rw [h] at he
            exact this he

theorem parseTopics_fuel (s : CStr) : parseTopics s ≠ .error Fault.fuel :=
  topicsLoop_fuel (strlen s) s (Nat.le_refl _)

/-- A creation sequence that returns `RS_RET_OK` has attached the socket it
leaves in the instance. -/
theorem initCZMQ_ok_attached (m : modConfData) (t : Transport) (n : Nat) (p : instanceData)
    (h : (initCZMQ m t n p).iRet = RS_RET_OK) :
    attached (initCZMQ m t n p).calls (initCZMQ m t n p).pData.sock = true := by
  unfold initCZMQ at h ⊢
  simp only [] at h ⊢
  split
  · rename_i h1; simp [h1] at h
  · rename_i h1
    rw [if_neg h1] at h
    split
    · rename_i c2 heq
      rw [heq] at h
      simp at h
    · rename_i c2 heq
      rw [heq] at h
      simp only [] at h
      split
      · rename_i h2; simp [h2] at h
      · rename_i h2
        simp [attached, h2]

/-- A publish that has to create the socket and fails to makes no send
attempt and returns what the creation sequence returned. -/
theorem outputCZMQ_creation_fails (m : modConfData) (t : Transport) (n : Nat)
    (ppString : List CStr) (p : instanceData)
    (h : (ensureSocket m t n p).iRet ≠ RS_RET_OK) :
    outputCZMQ m t n ppString p = some (ensureSocket m t n p) ∧
    sendAttempts (ensureSocket m t n p).calls = [] := by
  refine ⟨?_, ensureSocket_sendAttempts m t n p⟩
  unfold outputCZMQ
  simp only [h, ne_eq, not_false_eq_true, if_true]

/-! ## The publish operation -/

/-- Outside the topic loop (a socket that is not PUB, or no topic list object)
a publish on a present socket makes one send attempt, the single frame
`ppString[0]`, and returns by its result. -/
theorem outputCZMQ_plain (m : modConfData) (t : Transport) (n : Nat) (p : instanceData)
    (s : Nat) (P : CStr) (keys : List CStr) (hsock : p.sock = some s)
    (h : p.sockType ≠ ZMQ_PUB ∨ p.topics = none) :
    outputCZMQ m t n (P :: keys) p =
      some { iRet := if t.send 0 = 0 then RS_RET_OK else RS_RET_SUSPENDED,
             pData := if t.send 0 = 0 then p else { p with sendError := true },
             nextSock := n,
             calls := [Call.send (some s) [P] (t.send 0)] } := by
  unfold outputCZMQ
  rw [ensureSocket_present m t n p s hsock]
  simp only [ne_eq, not_true_eq_false, if_false]
  unfold sendPhase
  rcases h with h | h
  · simp only [h, decide_False, List.getElem?_cons_zero, zstr_send, hsock, List.nil_append]
    by_cases h0 : t.send 0 = 0 <;> simp [h0]
  · simp only [h, List.getElem?_cons_zero, zstr_send, hsock, List.nil_append]
    by_cases h0 : t.send 0 = 0 <;> by_cases hp : p.sockType = ZMQ_PUB <;> simp [h0, hp]

/-- C1: on a PUB instance with topic list `t1..tn`, `dynaKey` false, the socket
handle present and every send succeeding, `outputCZMQ` with payload
`P = ppString[0]` returns `RS_RET_OK`, leaves the instance as it is, and its
calls are exactly `n` sends in topic order: the two frames `(ti, P)` when
`topicFrame` is set, the single frame `ti ++ P` otherwise (for every `n`, so
for `n >= 1`). -/
theorem outputCZMQ_static_topics (m : modConfData) (t : Transport) (n : Nat)
    (p : instanceData) (s : Nat) (topics : List CStr) (P : CStr) (keys : List CStr)
    (hpub : p.sockType = ZMQ_PUB) (htop : p.topics = some topics)
    (hdyn : p.dynaKey = false) (hsock : p.sock = some s)
    (hsend : ∀ i, i < topics.length → t.send i = 0) :
    outputCZMQ m t n (P :: keys) p =
      some { iRet := RS_RET_OK, pData := p, nextSock := n,
             calls := topics.map fun ti =>
               if p.topicFrame then Call.send (some s) [ti, P] 0
               else Call.send (some s) [ti ++ P] 0 } := by
  have hloop := topicLoop_static t p P keys hdyn topics 0
    (fun i hi => by simpa using hsend i hi)
  simp only [Nat.zero_add] at hloop
  unfold outputCZMQ
  rw [ensureSocket_present m t n p s hsock]
  simp only [ne_eq, not_true_eq_false, if_false]
  unfold sendPhase
  simp only [hpub, htop, decide_True, hloop, List.nil_append, hsock]
  congr 2
  apply List.map_congr_left
  intro ti _
  unfold framed
  split <;> rfl

/-- C1, witness: topics `x`, `y` and payload `P` give the sends `(x, P)`,
`(y, P)` with `topicFrame` and `xP`, `yP` without. -/
theorem outputCZMQ_static_topics_witness :
    outputCZMQ noSecurity allSucceed 1 ["P".toList] (pubXY true false) =
      some { iRet := RS_RET_OK, pData := pubXY true false, nextSock := 1,
             calls := [Call.send (some 0) ["x".toList, "P".toList] 0,
                       Call.send (some 0) ["y".toList, "P".toList] 0] } ∧
    outputCZMQ noSecurity allSucceed 1 ["P".toList] (pubXY false false) =
      some { iRet := RS_RET_OK, pData := pubXY false false, nextSock := 1,
             calls := [Call.send (some 0) ["xP".toList] 0,
                       Call.send (some 0) ["yP".toList] 0] } :=
  ⟨outputCZMQ_static_topics noSecurity allSucceed 1 (pubXY true false) 0
      ["x".toList, "y".toList] "P".toList [] rfl rfl rfl rfl (fun _ _ => rfl),
   outputCZMQ_static_topics noSecurity allSucceed 1 (pubXY false false) 0
      ["x".toList, "y".toList] "P".toList [] rfl rfl rfl rfl (fun _ _ => rfl)⟩

/-- A publish with dynamic keys, one rendered key per topic, every send
succeeding and the socket there or created: what it returns. -/
theorem outputCZMQ_dyna (m : modConfData) (t : Transport) (n : Nat) (p : instanceData)
    (topics : List CStr) (P : CStr) (keys : List CStr)
    (hpub : p.sockType = ZMQ_PUB) (htop : p.topics = some topics) (hdyn : p.dynaKey = true)
    (hlen : keys.length = topics.length) (hsend : ∀ i, i < topics.length → t.send i = 0)
    (hens : (ensureSocket m t n p).iRet = RS_RET_OK) :
    outputCZMQ m t n (P :: keys) p =
      some { iRet := RS_RET_OK, pData := (ensureSocket m t n p).pData,
             nextSock := (ensureSocket m t n p).nextSock,
             calls := (ensureSocket m t n p).calls ++ keys.map fun key =>
               Call.send (ensureSocket m t n p).pData.sock (framed p key P) 0 } := by
  have hp := ensureSocket_pData m t n p
  have hloop := topicLoop_dyna t (ensureSocket m t n p).pData P keys
    (by rw [hp]; exact hdyn) topics 0 (fun i hi => by simpa using hsend i hi)
    (by omega)
  simp only [Nat.zero_add, List.drop_zero, ← hlen, List.take_length] at hloop
  unfold outputCZMQ
  simp only [hens, ne_eq, not_true_eq_false, if_false]
  unfold sendPhase
  have h1 : (ensureSocket m t n p).pData.sockType = ZMQ_PUB := by rw [hp]; exact hpub
  have h2 : (ensureSocket m t n p).pData.topics = some topics := by rw [hp]; exact htop
  simp only [h1, h2, decide_True, hloop]
  congr 3
  apply List.map_congr_left
  intro key _
  rw [framed_congr p _ (by rw [hp])]

theorem initCZMQ_topics (m : modConfData) (t : Transport) (n : Nat) (p : instanceData)
    (l : Option (List CStr)) :
    initCZMQ m t n { p with topics := l } =
      { initCZMQ m t n p with pData := { (initCZMQ m t n p).pData with topics := l } } := by
  unfold initCZMQ
  simp only []
  split
  · rfl
  · split
    · rfl
    · split <;> rfl

theorem ensureSocket_topics (m : modConfData) (t : Transport) (n : Nat) (p : instanceData)
    (l : Option (List CStr)) :
    ensureSocket m t n { p with topics := l } =
      { ensureSocket m t n p with pData := { (ensureSocket m t n p).pData with topics := l } } := by
  unfold ensureSocket
  cases hs : p.sock with
  | none => simp only [hs]; exact initCZMQ_topics m t n p l
  | some s => simp only [hs]

/-- C2: on a PUB instance with `dynaKey` set, `n` configured topics and
rendered strings `P, k1, .., kn`, with every send succeeding (the socket there
or its creation succeeding), `outputCZMQ` returns `RS_RET_OK` and its send
attempts are exactly `n`, under the topic strings `k1, .., kn` in that order,
each with payload `P` in the framing mode; and an instance that differs only in
the names of its topics (same number) makes the same calls and returns the
same. -/
theorem outputCZMQ_dynaKey (m : modConfData) (t : Transport) (n : Nat) (p : instanceData)
    (topics : List CStr) (P : CStr) (keys : List CStr)
    (hpub : p.sockType = ZMQ_PUB) (htop : p.topics = some topics) (hdyn : p.dynaKey = true)
    (hlen : keys.length = topics.length) (hsend : ∀ i, i < topics.length → t.send i = 0)
    (hens : (ensureSocket m t n p).iRet = RS_RET_OK) :
    ∃ out, outputCZMQ m t n (P :: keys) p = some out ∧ out.iRet = RS_RET_OK ∧
      sendAttempts out.calls = keys.map (fun key => (out.pData.sock, framed p key P, 0)) ∧
      (sendAttempts out.calls).length = topics.length ∧
      ∀ names : List CStr, names.length = topics.length →
        outputCZMQ m t n (P :: keys) { p with topics := some names } =
          some { out with pData := { out.pData with topics := some names } } := by
  refine ⟨_, outputCZMQ_dyna m t n p topics P keys hpub htop hdyn hlen hsend hens, rfl, ?_, ?_, ?_⟩
  · simp only [sendAttempts_append, ensureSocket_sendAttempts, List.nil_append]
    exact sendAttempts_map_send _ keys (fun key => framed p key P) (fun _ => 0)
  · simp only [sendAttempts_append, ensureSocket_sendAttempts, List.nil_append]
    rw [sendAttempts_map_send _ keys (fun key => framed p key P) (fun _ => 0)]
    simp [hlen]
  · intro names hnames
    have hE := ensureSocket_topics m t n p (some names)
    rw [outputCZMQ_dyna m t n { p with topics := some names } names P keys hpub rfl hdyn
      (by omega) (fun i hi => hsend i (by omega)) (by rw [hE]; exact hens)]
    rw [hE]
    rfl

/-- C2, witness: topics `x`, `y` and rendered strings `P`, `k1`, `k2` give the
sends `(k1, P)` then `(k2, P)`. -/
theorem outputCZMQ_dynaKey_witness :
    ∃ out, outputCZMQ noSecurity allSucceed 1 ["P".toList, "k1".toList, "k2".toList]
        (pubXY true true) = some out ∧ out.iRet = RS_RET_OK ∧
      sendAttempts out.calls =
        ["k1".toList, "k2".toList].map
          (fun key => (out.pData.sock, framed (pubXY true true) key "P".toList, 0)) ∧
      (sendAttempts out.calls).length = ["x".toList, "y".toList].length ∧
      ∀ names : List CStr, names.length = ["x".toList, "y".toList].length →
        outputCZMQ noSecurity allSucceed 1 ["P".toList, "k1".toList, "k2".toList]
            { pubXY true true with topics := some names } =
          some { out with pData := { out.pData with topics := some names } } :=
  outputCZMQ_dynaKey noSecurity allSucceed 1 (pubXY true true) ["x".toList, "y".toList]
    "P".toList ["k1".toList, "k2".toList] rfl rfl rfl rfl (fun _ _ => rfl) rfl

/-- C3: on a PUB instance with a topic list of `n >= 1` topics and `1 <= k <= n`
(the socket there or its creation succeeding, and with `dynaKey` at least `k`
rendered keys), if the first `k - 1` sends succeed and the `k`-th fails,
`outputCZMQ` makes exactly `k` send attempts, those for the topics `1..k` and
none for the later topics, leaves `sendError` set and returns
`RS_RET_SUSPENDED`. -/
theorem outputCZMQ_send_failure (m : modConfData) (t : Transport) (n : Nat) (p : instanceData)
    (topics : List CStr) (P : CStr) (keys : List CStr) (k : Nat)
    (hpub : p.sockType = ZMQ_PUB) (htop : p.topics = some topics)
    (hk : 0 < k) (hkn : k ≤ topics.length) (hkeys : p.dynaKey = true → k ≤ keys.length)
    (hens : (ensureSocket m t n p).iRet = RS_RET_OK)
    (hok : ∀ i, i + 1 < k → t.send i = 0) (hfail : t.send (k - 1) ≠ 0) :
    ∃ out, outputCZMQ m t n (P :: keys) p = some out ∧ out.iRet = RS_RET_SUSPENDED ∧
      out.pData.sendError = true ∧ (sendAttempts out.calls).length = k ∧
      sendAttempts out.calls = (List.range k).map (fun i =>
        (out.pData.sock, framed p (effectiveTopic p (P :: keys) topics i) P, t.send i)) := by
  obtain ⟨j, rfl⟩ : ∃ j, k = j + 1 := ⟨k - 1, by omega⟩
  have hp := ensureSocket_pData m t n p
  have hloop := topicLoop_fail t (ensureSocket m t n p).pData P keys topics topics 0 j
    rfl (by omega) (fun i hi => by simpa using hok i (by omega)) (by simpa using hfail)
    (fun hd => by
      rw [hp] at hd
      have := hkeys hd
      omega)
  simp only [Nat.zero_add] at hloop
  have h1 : (ensureSocket m t n p).pData.sockType = ZMQ_PUB := by rw [hp]; exact hpub
  have h2 : (ensureSocket m t n p).pData.topics = some topics := by rw [hp]; exact htop
  have hout : outputCZMQ m t n (P :: keys) p =
      some { iRet := RS_RET_SUSPENDED,
             pData := { (ensureSocket m t n p).pData with sendError := true },
             nextSock := (ensureSocket m t n p).nextSock,
             calls := (ensureSocket m t n p).calls ++ (List.range' 0 (j + 1)).map fun i =>
               Call.send (ensureSocket m t n p).pData.sock
                 (framed (ensureSocket m t n p).pData
                   (effectiveTopic (ensureSocket m t n p).pData (P :: keys) topics i) P)
                 (t.send i) } := by
    unfold outputCZMQ
    simp only [hens, ne_eq, not_true_eq_false, if_false]
    unfold sendPhase
    simp only [h1, h2, decide_True, hloop]
  have hsends : sendAttempts ((ensureSocket m t n p).calls ++ (List.range' 0 (j + 1)).map fun i =>
               Call.send (ensureSocket m t n p).pData.sock
                 (framed (ensureSocket m t n p).pData
                   (effectiveTopic (ensureSocket m t n p).pData (P :: keys) topics i) P)
                 (t.send i)) = (List.range (j + 1)).map (fun i =>
        ((ensureSocket m t n p).pData.sock,
          framed p (effectiveTopic p (P :: keys) topics i) P, t.send i)) := by
    simp only [sendAttempts_append, ensureSocket_sendAttempts, List.nil_append]
    rw [sendAttempts_map_send _ (List.range' 0 (j + 1)) _ (fun i => t.send i),
      List.range_eq_range']
    apply List.map_congr_left
    intro i _
    rw [framed_congr p _ (by rw [hp]), effectiveTopic_congr p _ (by rw [hp])]
  refine ⟨_, hout, rfl, rfl, ?_, hsends⟩
  simp only []
  rw [hsends]
  simp

/-- C3, witness: with two topics and the first send failing there is exactly
one send attempt. -/
theorem outputCZMQ_send_failure_witness :
    ∃ out, outputCZMQ noSecurity (sendFailsAt 0) 1 ["P".toList] (pubXY true false) = some out ∧
      out.iRet = RS_RET_SUSPENDED ∧ out.pData.sendError = true ∧
      (sendAttempts out.calls).length = 1 ∧
      sendAttempts out.calls = (List.range 1).map (fun i =>
        (out.pData.sock,
          framed (pubXY true false)
            (effectiveTopic (pubXY true false) ["P".toList] ["x".toList, "y".toList] i)
            "P".toList,
          (sendFailsAt 0).send i)) :=
  outputCZMQ_send_failure noSecurity (sendFailsAt 0) 1 (pubXY true false)
    ["x".toList, "y".toList] "P".toList [] 1 rfl rfl (by decide) (by decide)
    (fun h => absurd h (by decide)) rfl (fun i hi => absurd hi (by omega)) (by decide)

/-- C4, the code at the failing input: `topics=""` leaves a PUB action with a
topic list object that holds no topic, and a publish on it (socket present,
every send succeeding) returns `RS_RET_OK` without a single call to the
transport: the message is not sent. -/
theorem outputCZMQ_empty_topic_list :
    newActInst_topics (action ZMQ_PUB) (some "".toList) =
      .ok (RS_RET_OK, { action ZMQ_PUB with topics := some [] }) ∧
    outputCZMQ noSecurity allSucceed 1 ["P".toList]
        { action ZMQ_PUB with topics := some [], sock := some 0 } =
      some { iRet := RS_RET_OK,
             pData := { action ZMQ_PUB with topics := some [], sock := some 0 },
             nextSock := 1, calls := [] } ∧
    outputCZMQ noSecurity allSucceed 1 ["P".toList] { action ZMQ_PUB with sock := some 0 } =
      some { iRet := RS_RET_OK, pData := { action ZMQ_PUB with sock := some 0 },
             nextSock := 1, calls := [Call.send (some 0) ["P".toList] 0] } :=
  ⟨rfl, rfl, rfl⟩
/-! ## Topic-list parsing: round trip and segments -/

/-- C5: topic-list parsing is a round trip. For every topic-list string whose
comma-separated segments are each shorter than 256 bytes, parsing ends
normally and the parsed sequence joined with `,` is the string itself or the
string less one trailing comma; `a,b,c` parses to `a`, `b`, `c` and `a` to
`a`. -/
theorem parseTopics_roundtrip (s : CStr) (hseg : ∀ seg ∈ segments s, seg.length < 256) :
    (∃ l, parseTopics s = .ok l ∧ (joinTopics l = s ∨ joinTopics l ++ [','] = s)) ∧
    parseTopics "a,b,c".toList = .ok ["a".toList, "b".toList, "c".toList] ∧
    parseTopics "a".toList = .ok ["a".toList] :=
  ⟨⟨topicSegments s, parseTopics_eq s hseg, joinTopics_topicSegments s⟩, rfl, rfl⟩

/-- C5, witness: the round trip at `a,b,` whose parse, joined, lacks the
trailing comma. -/
theorem parseTopics_roundtrip_witness :
    (∀ seg ∈ segments "a,b,".toList, seg.length < 256) ∧
    ((∃ l, parseTopics "a,b,".toList = .ok l ∧
        (joinTopics l = "a,b,".toList ∨ joinTopics l ++ [','] = "a,b,".toList)) ∧
      parseTopics "a,b,c".toList = .ok ["a".toList, "b".toList, "c".toList] ∧
      parseTopics "a".toList = .ok ["a".toList]) :=
  ⟨by decide, parseTopics_roundtrip "a,b,".toList (by decide)⟩

/-- C9, counterexample: `a, b` parses to `a` and ` b`; the second topic begins
with a blank, and the parse is not the trimmed segments `a`, `b`. -/
theorem parseTopics_not_trimmed :
    parseTopics "a, b".toList = .ok ["a".toList, " b".toList] ∧
    (" b".toList).head? = some ' ' ∧ Char.isWhitespace ' ' = true ∧
    (segments "a, b".toList).map trim = ["a".toList, "b".toList] ∧
    parseTopics "a, b".toList ≠ .ok ((segments "a, b".toList).map trim) := by
  refine ⟨rfl, rfl, by decide, by decide, ?_⟩
  intro h
  have h2 : parseTopics "a, b".toList = .ok ["a".toList, " b".toList] := rfl
  rw [h2] at h
  simp only [Except.ok.injEq] at h
  revert h
  decide

set_option maxRecDepth 20000 in
/-- A segment of 256 chars does not fit `char topic[256]` with its terminating
NUL: the copy writes past the buffer. -/
theorem parseTopics_overflow :
    parseTopics (List.replicate 256 'a') = .error Fault.bufferOverflow ∧
    parseTopics (List.replicate 255 'a') = .ok [List.replicate 255 'a'] :=
  ⟨by rfl, by rfl⟩

theorem segments_getLast_nil {s : CStr} (h : (segments s).getLast? = some []) :
    s = [] ∨ s.getLast? = some ',' := by
  have hsplit : segments s = (segments s).dropLast ++ [[]] :=
    (List.dropLast_append_getLast? [] (by simpa using h)).symm
  have hj := joinTopics_segments s
  by_cases hd : (segments s).dropLast = []
  · left
    rw [hsplit, hd] at hj
    rw [← hj]
    simp [joinTopics, List.intercalate]
  · right
    rw [hsplit, joinTopics_append_empty _ hd] at hj
    rw [← hj]
    simp

/-- C9 as amended: for every topic-list string whose comma-separated segments
are each shorter than 256 bytes, the parsed sequence consists, in the original
order, of the comma-separated segments copied verbatim (no whitespace is
removed), without the empty segment after a final comma or of the empty
string; a final segment without a trailing comma is included: a non-empty
string that does not end in a comma parses to all of its segments. -/
theorem parseTopics_verbatim (s : CStr) (hseg : ∀ seg ∈ segments s, seg.length < 256) :
    parseTopics s = .ok (topicSegments s) ∧
    (s ≠ [] → s.getLast? ≠ some ',' → parseTopics s = .ok (segments s)) := by
  refine ⟨parseTopics_eq s hseg, fun hne hlast => ?_⟩
  rw [parseTopics_eq s hseg]
  congr 1
  unfold topicSegments
  split
  · rename_i h
    rcases segments_getLast_nil h with h1 | h1
    · exact absurd h1 hne
    · exact absurd h1 hlast
  · rfl

/-- C9 as amended, witness: ` a , b` parses to ` a ` and ` b`, blanks kept. -/
theorem parseTopics_verbatim_witness :
    (∀ seg ∈ segments " a , b".toList, seg.length < 256) ∧
    parseTopics " a , b".toList = .ok [" a ".toList, " b".toList] :=
  ⟨by decide,
   ((parseTopics_verbatim " a , b".toList (by decide)).2 (by decide) (by decide)).trans
     (congrArg Except.ok (by decide))⟩

/-! ## Resume, role and authenticator -/

/-- C6: for every instance state, `tryResume` destroys the handle it finds
(whatever it is, also NULL) and then runs the creation sequence: its return
code, instance and socket count are those of `initCZMQ` on the same instance
with the handle absent, its calls are the destroy followed by those of
`initCZMQ`, and nothing of this depends on the handle or `sendError` found.
When it succeeds on an instance whose handle `old` was handed out before, the
new handle is a socket created in this call and is not `old`. -/
theorem tryResume_rebuilds (m : modConfData) (t : Transport) (n : Nat) (p : instanceData) :
    (tryResume m t n p).iRet = (initCZMQ m t n { p with sock := none }).iRet ∧
    (tryResume m t n p).pData = (initCZMQ m t n { p with sock := none }).pData ∧
    (tryResume m t n p).nextSock = (initCZMQ m t n { p with sock := none }).nextSock ∧
    (tryResume m t n p).calls =
      Call.zsock_destroy p.sock :: (initCZMQ m t n { p with sock := none }).calls ∧
    (∀ (h : Option Nat) (e : Bool),
      (tryResume m t n { p with sock := h, sendError := e }).iRet = (tryResume m t n p).iRet ∧
      (tryResume m t n { p with sock := h, sendError := e }).pData.sock =
        (tryResume m t n p).pData.sock) ∧
    (∀ old, p.sock = some old → old < n → (tryResume m t n p).iRet = RS_RET_OK →
      (tryResume m t n p).pData.sock = some n ∧ n ≠ old ∧
      Call.zsock_destroy (some old) ∈ (tryResume m t n p).calls ∧
      Call.zsock_new p.sockType (some n) ∈ (tryResume m t n p).calls) := by
  refine ⟨rfl, rfl, rfl, rfl, ?_, ?_⟩
  · intro h e
    unfold tryResume initCZMQ
    simp only []
    split
    · exact ⟨rfl, rfl⟩
    · split
      · exact ⟨rfl, rfl⟩
      · split <;> exact ⟨rfl, rfl⟩
  · intro old hold hlt hok
    have hinit : (initCZMQ m t n { p with sock := none }).iRet = RS_RET_OK := hok
    refine ⟨(initCZMQ_ok m t n _ hinit).1, by omega, ?_, ?_⟩
    · rw [← hold]
      exact List.mem_cons_self _ _
    · apply List.mem_cons_of_mem
      unfold initCZMQ at hinit ⊢
      simp only [] at hinit ⊢
      split
      · rename_i h1; simp [h1] at hinit
      · split
        · simp
        · split <;> simp

/-- C6, witness: a publish whose send fails reports `RS_RET_SUSPENDED` with
`sendError` set and socket 0; the resume that follows succeeds and leaves
socket 1, created in that call, after destroying socket 0. -/
theorem tryResume_rebuilds_witness :
    (outputCZMQ noSecurity (sendFailsAt 0) 1 ["P".toList] (pubXY true false)).map
        (fun o => (o.iRet, o.pData.sendError, o.pData.sock, o.nextSock)) =
      some (RS_RET_SUSPENDED, true, some 0, 1) ∧
    (tryResume noSecurity allSucceed 1 { pubXY true false with sendError := true }).pData.sock =
      some 1 ∧ 1 ≠ 0 ∧
    Call.zsock_destroy (some 0) ∈
      (tryResume noSecurity allSucceed 1 { pubXY true false with sendError := true }).calls ∧
    Call.zsock_new ZMQ_PUB (some 1) ∈
      (tryResume noSecurity allSucceed 1 { pubXY true false with sendError := true }).calls :=
  ⟨rfl, (tryResume_rebuilds noSecurity allSucceed 1
      { pubXY true false with sendError := true }).2.2.2.2.2 0 rfl (by decide) rfl⟩

theorem initCZMQ_serverish (m : modConfData) (t : Transport) (n : Nat) (p : instanceData)
    (hnew : ¬ t.zsock_new p.sockType = false) (hcurve : (curveSetup m t (some n)).1 = true) :
    (initCZMQ m t n p).pData.serverish = roleOf p.sockType p.serverish := by
  unfold initCZMQ
  simp only []
  rw [if_neg hnew]
  cases hc : curveSetup m t (some n) with
  | mk ok c2 =>
    rw [hc] at hcurve
    simp only [] at hcurve
    subst hcurve
    simp only []
    split <;> rfl

/-- C7: for a valid socket type (PUB, PUSH or DEALER) and every prior
`serverish`, module configuration and transport, an attach call of `initCZMQ`
is made on the new socket, to `sockEndpoints`, with `serverish` true exactly
when the type is PUB and false for PUSH and DEALER, which is also the value
left in the instance; and whenever the socket is created and the security
block runs through, that attach call is made. -/
theorem initCZMQ_role (m : modConfData) (t : Transport) (n : Nat) (p : instanceData)
    (hvalid : p.sockType = ZMQ_PUB ∨ p.sockType = ZMQ_PUSH ∨ p.sockType = ZMQ_DEALER) :
    (∀ s ep srv rc, Call.zsock_attach s ep srv rc ∈ (initCZMQ m t n p).calls →
      (srv = true ↔ p.sockType = ZMQ_PUB) ∧
      (p.sockType = ZMQ_PUSH ∨ p.sockType = ZMQ_DEALER → srv = false) ∧
      (initCZMQ m t n p).pData.serverish = srv ∧ s = some n ∧ ep = p.sockEndpoints) ∧
    (t.zsock_new p.sockType = true → (curveSetup m t (some n)).1 = true →
      Call.zsock_attach (some n) p.sockEndpoints (decide (p.sockType = ZMQ_PUB))
        (t.zsock_attach p.sockEndpoints (decide (p.sockType = ZMQ_PUB))) ∈
        (initCZMQ m t n p).calls) := by
  have hrole : roleOf p.sockType p.serverish = decide (p.sockType = ZMQ_PUB) := by
    unfold roleOf
    rcases hvalid with h | h | h <;> simp [h, ZMQ_PUB, ZMQ_PUSH, ZMQ_DEALER]
  have hdec : ∀ srv : Bool, srv = decide (p.sockType = ZMQ_PUB) →
      (srv = true ↔ p.sockType = ZMQ_PUB) ∧
      (p.sockType = ZMQ_PUSH ∨ p.sockType = ZMQ_DEALER → srv = false) := by
    intro srv hsrv
    subst hsrv
    refine ⟨by simp, ?_⟩
    intro h
    rcases h with h | h <;> simp [h, ZMQ_PUB, ZMQ_PUSH, ZMQ_DEALER]
  have hno := curveSetup_no_attach m t (some n)
  constructor
  · intro s ep srv rc hmem
    have hser := initCZMQ_serverish m t n p
    unfold initCZMQ at hmem
    simp only [] at hmem
    split at hmem
    · simp at hmem
    · rename_i hnew
      split at hmem
      · rename_i c2 heq
        rw [heq] at hno
        simp only [List.mem_append, List.mem_cons, List.mem_singleton, List.mem_nil_iff,
          reduceCtorEq, or_false, false_or] at hmem
        exact absurd hmem (hno s ep srv rc)
      · rename_i c2 heq
        rw [heq] at hno
        have hattach : s = some n ∧ ep = p.sockEndpoints ∧
            srv = roleOf p.sockType p.serverish := by
          split at hmem <;>
          · simp only [List.mem_append, List.mem_cons, List.mem_singleton, List.mem_nil_iff,
              reduceCtorEq, or_false, false_or] at hmem
            rcases hmem with hmem | hmem
            · exact absurd hmem (hno s ep srv rc)
            · simp only [Call.zsock_attach.injEq] at hmem
              exact ⟨hmem.1, hmem.2.1, hmem.2.2.1⟩
        obtain ⟨hs, hep, hsrv⟩ := hattach
        refine ⟨(hdec srv (hsrv.trans hrole)).1, (hdec srv (hsrv.trans hrole)).2, ?_, hs, hep⟩
        rw [hsrv]
        exact hser hnew (by rw [heq])
  · intro hnew hcurve
    unfold initCZMQ
    simp only [hnew, Bool.true_eq_false, if_false]
    cases hc : curveSetup m t (some n) with
    | mk ok c2 =>
      rw [hc] at hcurve
      simp only [] at hcurve
      subst hcurve
      simp only [hrole]
      split <;> simp

/-- C7, witness: a PUB action attaches as listener, PUSH and DEALER actions as
connectors. -/
theorem initCZMQ_role_witness :
    Call.zsock_attach (some 0) (some "tcp://*:5555".toList) (decide (ZMQ_PUB = ZMQ_PUB)) 0 ∈
      (initCZMQ curveServer allSucceed 0 (action ZMQ_PUB)).calls ∧
    (initCZMQ curveServer allSucceed 0 (action ZMQ_PUB)).pData.serverish = true ∧
    (initCZMQ noSecurity allSucceed 0 { action ZMQ_PUSH with serverish := true }).pData.serverish
      = false :=
  ⟨(initCZMQ_role curveServer allSucceed 0 (action ZMQ_PUB) (Or.inl rfl)).2 rfl rfl,
   by decide, by decide⟩

/-- Where `clientCertPath` is configured and `zactor_new` yields an actor:
with `authenticator` on, `activateCnf` with no actor running starts one actor
and sends it one CURVE message, `CURVE_ALLOW_ANY` when `clientCertPath` is `*`
and the given `clientCertPath` otherwise, then waits for it; with an actor
running it does nothing; with `authenticator` off it starts no actor and makes
no call. -/
theorem activateCnf_configured (m : modConfData) (zactor_new : Option Nat) :
    (∀ path a, m.authenticator = 1 → m.clientCertPath = some path → zactor_new = some a →
      activateCnf m zactor_new none =
        some (some a,
          [Call.zactor_new (some a),
           Call.actor_send (some a)
             ["CURVE".toList, if path = "*".toList then CURVE_ALLOW_ANY else path],
           Call.zsock_wait (some a)])) ∧
    (∀ a, m.authenticator = 1 → activateCnf m zactor_new (some a) = some (some a, [])) ∧
    (∀ actor, m.authenticator ≠ 1 → activateCnf m zactor_new actor = some (actor, [])) := by
  refine ⟨?_, ?_, ?_⟩
  · intro path a h1 h2 h3
    unfold activateCnf
    simp only [h1, h2, h3, if_true]
    split <;> rename_i hp
    · rw [if_pos (by simpa using hp)]
    · rw [if_neg (by simpa using hp)]
  · intro a h1
    unfold activateCnf
    simp only [h1, if_true]
  · intro actor h1
    unfold activateCnf
    simp only [h1, if_false]

/-- Certificate path `*` configures accept-any, the path `/etc/curve/clients`
restricts to that path, a running actor is left alone. -/
theorem activateCnf_configured_examples :
    activateCnf curveServer (some 0) none =
      some (some 0, [Call.zactor_new (some 0),
                     Call.actor_send (some 0) ["CURVE".toList, CURVE_ALLOW_ANY],
                     Call.zsock_wait (some 0)]) ∧
    activateCnf { curveServer with clientCertPath := some "/etc/curve/clients".toList }
        (some 0) none =
      some (some 0, [Call.zactor_new (some 0),
                     Call.actor_send (some 0) ["CURVE".toList, "/etc/curve/clients".toList],
                     Call.zsock_wait (some 0)]) ∧
    activateCnf curveServer (some 1) (some 0) = some (some 0, []) ∧
    activateCnf noSecurity (some 0) none = some (none, []) :=
  ⟨((activateCnf_configured curveServer (some 0)).1 "*".toList 0 rfl rfl rfl).trans rfl,
   ((activateCnf_configured
      { curveServer with clientCertPath := some "/etc/curve/clients".toList } (some 0)).1
      "/etc/curve/clients".toList 0 rfl rfl rfl).trans rfl,
   (activateCnf_configured curveServer (some 1)).2.1 0 rfl,
   (activateCnf_configured noSecurity (some 0)).2.2 none (by decide)⟩

/-- C8, the code at the failing input. With `authenticator="on"` and no
`clientcertpath` directive, `clientCertPath` is NULL; `activateCnf` with no
actor running starts the actor and then compares the NULL path with `*`
(`strcmp` on a NULL pointer, undefined in C): no CURVE message is sent and the
call has no defined result, though the actor handed out was a good one. With
the path given, the same call starts the actor and sends the one CURVE
message. `initCZMQ` tests `authType` for NULL before its `strcmp`. -/
theorem activateCnf_null_clientCertPath :
    authenticatorOnly.authenticator = 1 ∧ authenticatorOnly.clientCertPath = none ∧
    activateCnf authenticatorOnly (some 0) none = none ∧
    activateCnf { authenticatorOnly with clientCertPath := some "*".toList } (some 0) none =
      some (some 0, [Call.zactor_new (some 0),
                     Call.actor_send (some 0) ["CURVE".toList, CURVE_ALLOW_ANY],
                     Call.zsock_wait (some 0)]) ∧
    (initCZMQ authenticatorOnly allSucceed 0 (action ZMQ_PUB)).iRet = RS_RET_OK :=
  ⟨rfl, rfl, rfl, rfl, rfl⟩

/-! ## The handle after a failed creation sequence -/

/-- C10, the code at the failing input. With `authtype="CURVESERVER"` and a
server certificate that does not load, the first `doAction` on a new PUSH
action returns `RS_RET_ERR` and leaves the handle of socket 0, which has no
security applied and was never attached; the next `doAction` finds the handle
present, skips the creation sequence and sends the message on socket 0. The
same happens after an attach that fails (`RS_RET_SUSPENDED`) when the next
entry point is `doAction`. -/
theorem doAction_sends_on_unfinished_socket :
    (run curveServer (start (action ZMQ_PUSH)) [Op.doAction ["P".toList] certMissing]).map
        (fun s => (s.iRet, s.pData.sock, attached s.log (some 0), secured s.log (some 0))) =
      some (RS_RET_ERR, some 0, false, false) ∧
    (run curveServer (start (action ZMQ_PUSH))
        [Op.doAction ["P".toList] certMissing, Op.doAction ["P".toList] certMissing]).map
        (fun s => (s.iRet, s.pData.sock, s.log.getLast?, attached s.log (some 0),
          secured s.log (some 0))) =
      some (RS_RET_OK, some 0, some (Call.send (some 0) ["P".toList] 0), false, false) ∧
    (run noSecurity (start (action ZMQ_PUSH))
        [Op.doAction ["P".toList] attachFails, Op.doAction ["P".toList] attachFails]).map
        (fun s => (s.iRet, s.pData.sock, s.log.getLast?, attached s.log (some 0))) =
      some (RS_RET_OK, some 0, some (Call.send (some 0) ["P".toList] 0), false) := by
  refine ⟨by decide, by decide, by decide⟩
end Omczmq
